import Mathlib

/-!
Verification development for the doc-masking engine core
(`python_backend/`): entity spans, the aggregator
(`aggregator.merge_overlaps`, `aggregator.filter_by_policy`), the policy
validator (`policy.validate_and_normalize_policy`,
`policy.build_text_pseudonymize_fn`), the pseudonymizer
(`pseudonymizer.Pseudonymizer`), the redaction rewriter
(`redaction.mask_text_spans`), the detector registry
(`registry._safe_wrap`, `registry.DetectorRegistry.run_selected`) and the
text pipeline (`processor.process_text_file`).

Modelling conventions:
* Python `int` offsets become `Int`; Python `float` scores become `Rat`
  (every comparison or `max` the code performs on scores is exact, so the
  rational model agrees with IEEE semantics on the values involved).
* A span dict has mandatory keys `type`, `start`, `end` and an optional
  `score`; the optional key is an `Option Rat` (`e.get("score", d)` becomes
  `Option.getD`).  The `end` key is rendered as the field `stop` because
  `end` is a Lean keyword.
* Python dicts used as string-keyed maps become association lists queried
  with `List.lookup` (Python keys are unique; `lookup` returns the single
  binding).
* `hashlib`/`hmac` digests are pure library functions; they are modelled by
  an explicit function-valued parameter (`HmacAlgo`) rather than a
  re-implementation of SHA-256: every claim below is insensitive to the
  concrete compression function, only to its functionality.
* Fallible code returns `Except`; a Python `try/except` that swallows the
  error is `Except` elimination into a default.
-/

namespace DocMasking

/-- An entity span, modelling the span dicts produced by the detectors:
keys `type`, `start`, `end` (field `stop` here: `end` is reserved in Lean)
and the optional `score`. -/
structure Span where
  type : String
  start : Int
  stop : Int
  score : Option Rat
deriving DecidableEq, Repr

/-- The sort relation of `aggregator.merge_overlaps`:
`sorted(entities, key=lambda e: (e["start"], -e["end"]))`, i.e. start
ascending and, on equal starts, end descending.  Python's `sorted` is
stable and `List.insertionSort` with this reflexive total preorder is the
matching stable sort. -/
def mergeLE (a b : Span) : Prop :=
  a.start < b.start ∨ (a.start = b.start ∧ b.stop ≤ a.stop)

instance : DecidableRel mergeLE := fun a b =>
  inferInstanceAs (Decidable (a.start < b.start ∨ (a.start = b.start ∧ b.stop ≤ a.stop)))

instance : IsTotal Span mergeLE := by
  constructor
  intro a b
  rcases lt_trichotomy a.start b.start with h | h | h
  · exact Or.inl (Or.inl h)
  · rcases le_total b.stop a.stop with h' | h'
    · exact Or.inl (Or.inr ⟨h, h'⟩)
    · exact Or.inr (Or.inr ⟨h.symm, h'⟩)
  · exact Or.inr (Or.inl h)

instance : IsTrans Span mergeLE := by
  constructor
  intro a b c hab hbc
  rcases hab with h1 | ⟨h1, h1'⟩
  · rcases hbc with h2 | ⟨h2, _⟩
    · exact Or.inl (h1.trans h2)
    · exact Or.inl (h2 ▸ h1)
  · rcases hbc with h2 | ⟨h2, h2'⟩
    · exact Or.inl (h1 ▸ h2)
    · exact Or.inr ⟨h1.trans h2, h2'.trans h1'⟩

/-- Python's binary `max`, which returns its first argument when the two
compare equal (for `Rat` this is also the lattice `max`, see
`pyMax_eq_max`; the explicit form kernel-reduces, which the concrete
examples need). -/
def pyMax (a b : Rat) : Rat := if a < b then b else a

/-- The merging walk of `merge_overlaps` (`aggregator.py` lines 9-18):
`current` starts as the first sorted span; each following span `e` is
merged into `current` iff `e["start"] <= current["end"] and
e["type"] == current["type"]`, extending `current["end"]` to the max and
setting `current["score"]` to
`max(float(current.get("score", 0.0)), float(e.get("score", 0.0)))`;
otherwise `current` is emitted and `e` becomes the new `current`. -/
def mergeWalk (current : Span) : List Span → List Span
  | [] => [current]
  | e :: rest =>
      if e.start ≤ current.stop ∧ e.type = current.type then
        mergeWalk { current with
                    stop := max current.stop e.stop,
                    score := some (pyMax (current.score.getD 0) (e.score.getD 0)) } rest
      else current :: mergeWalk e rest

/-- `aggregator.merge_overlaps`. -/
def merge_overlaps (entities : List Span) : List Span :=
  match List.insertionSort mergeLE entities with
  | [] => []
  | a :: rest => mergeWalk a rest

/-- The policy dict as read by `aggregator.filter_by_policy`:
`policy.get("entities", [])` and `policy.get("thresholds", {}) or {}`. -/
structure FilterPolicy where
  entities : List String
  thresholds : List (String × Rat)
deriving DecidableEq, Repr

/-- `aggregator.filter_by_policy`.  The argument `policy` is `none` when
the Python value is not a dict (`if not isinstance(policy, dict): return
entities`).  `selected` empty short-circuits to `[]`; otherwise each span
is kept iff its type is selected and
`float(e.get("score", 1.0)) >= float(thresholds.get(et, 0.0))`. -/
def filter_by_policy (entities : List Span) (policy : Option FilterPolicy) : List Span :=
  match policy with
  | none => entities
  | some p =>
      if p.entities.isEmpty then []
      else entities.filter (fun e =>
        decide (e.type ∈ p.entities) &&
        decide ((p.thresholds.lookup e.type).getD 0 ≤ e.score.getD 1))

/-- Validity of a span with respect to an input of length `n`: half-open,
non-empty, within bounds. -/
def ValidSpan (n : Int) (s : Span) : Prop :=
  0 ≤ s.start ∧ s.start < s.stop ∧ s.stop ≤ n

instance (n : Int) (s : Span) : Decidable (ValidSpan n s) :=
  inferInstanceAs (Decidable (0 ≤ s.start ∧ s.start < s.stop ∧ s.stop ≤ n))

/-- Adjacent spans `a` then `b` do not satisfy the merge condition of the
walk: not (`b.start ≤ a.stop` and same type). -/
def NoMergePair (a b : Span) : Prop :=
  ¬ (b.start ≤ a.stop ∧ b.type = a.type)

/-- Modelled from the spec: `merge_overlaps` per §4.3's words — sort by
(start ascending, end descending); walk once, merging consecutive spans
iff they share a type and `next.start ≤ current.end`; the merged span is
the union (so its start is the minimum, its end the maximum) with
`score = max`.  Compared with the source-derived `mergeWalk`, which keeps
`current.start` unchanged. -/
def mergeStepSpec (current e : Span) : Span :=
  { type := current.type,
    start := min current.start e.start,
    stop := max current.stop e.stop,
    score := some (pyMax (current.score.getD 0) (e.score.getD 0)) }

/-- Modelled from the spec: the walk of §4.3 using the union span. -/
def mergeWalkSpec (current : Span) : List Span → List Span
  | [] => [current]
  | e :: rest =>
      if e.start ≤ current.stop ∧ e.type = current.type then
        mergeWalkSpec (mergeStepSpec current e) rest
      else current :: mergeWalkSpec e rest

/-- Modelled from the spec: §4.3 `merge_overlaps` end to end. -/
def mergeOverlapsSpec (entities : List Span) : List Span :=
  match List.insertionSort mergeLE entities with
  | [] => []
  | a :: rest => mergeWalkSpec a rest

/-- Python `str.strip()`: remove leading and trailing whitespace. -/
def pyStrip (s : String) : String :=
  String.mk (((s.toList.dropWhile Char.isWhitespace).reverse.dropWhile Char.isWhitespace).reverse)

/-- `pseudonymizer._token_shape`: digits map to `9`, letters to `A`/`a` by
case, whitespace to a space, everything else to itself.  (The Python
predicates are Unicode-aware; the model uses the ASCII classes, which
agree on every character the detectors and templates produce.) -/
def _token_shape (value : String) : String :=
  String.mk (value.toList.map (fun ch =>
    if ch.isDigit then '9'
    else if ch.isAlpha then (if ch.isUpper then 'A' else 'a')
    else if ch.isWhitespace then ' '
    else ch))

/-- Substring test, Python's `needle in hay`. -/
def containsSub (pat : List Char) : List Char → Bool
  | [] => pat.isEmpty
  | c :: rest => pat.isPrefixOf (c :: rest) || containsSub pat rest

/-- Python `str.replace(pat, rep)` for a non-empty literal `pat`: replace
every non-overlapping occurrence left to right.  Fuel-structured so that
the kernel can evaluate it; each step consumes at least one input
character, so fuel `= length input` is exact. -/
def replaceAllF (pat rep : List Char) : Nat → List Char → List Char
  | _, [] => []
  | 0, l => l
  | fuel + 1, c :: rest =>
      if pat.isPrefixOf (c :: rest) then
        rep ++ replaceAllF pat rep fuel (rest.drop (pat.length - 1))
      else c :: replaceAllF pat rep fuel rest

/-- `str.replace` entry point (callers always pass a non-empty pattern). -/
def pyReplace (s pat rep : String) : String :=
  String.mk (replaceAllF pat.toList rep.toList s.toList.length s.toList)

/-- Numeric value of a digit run (`int(match.group(1))`). -/
def digitsToNat (ds : List Char) : Nat :=
  ds.foldl (fun n c => n * 10 + (c.toNat - '0'.toNat)) 0

/-- Try to parse `\x7bhashN\x7d` (regex `\x7bhash(\d+)\x7d`) at the head of
the input; on success return `N` and the tail after the closing brace. -/
def parseHashPh : List Char → Option (Nat × List Char)
  | '\x7b' :: rest =>
      if "hash".toList.isPrefixOf rest then
        let after := rest.drop 4
        let digits := after.takeWhile Char.isDigit
        match digits, after.drop digits.length with
        | [], _ => none
        | ds, '\x7d' :: tail => some (digitsToNat ds, tail)
        | _, _ => none
      else none
  | _ => none

/-- Try to parse `\x7bdate:FMT\x7d` (regex `\x7bdate:([^\x7d]+)\x7d`). -/
def parseDatePh : List Char → Option (List Char × List Char)
  | '\x7b' :: rest =>
      if "date:".toList.isPrefixOf rest then
        let after := rest.drop 5
        let fmt := after.takeWhile (fun c => c ≠ '\x7d')
        match fmt, after.drop fmt.length with
        | [], _ => none
        | f, '\x7d' :: tail => some (f, tail)
        | _, _ => none
      else none
  | _ => none

/-- Try to parse `\x7borig_last:N\x7d` (regex `\x7borig_last:(\d+)\x7d`). -/
def parseOrigLastPh : List Char → Option (Nat × List Char)
  | '\x7b' :: rest =>
      if "orig_last:".toList.isPrefixOf rest then
        let after := rest.drop 10
        let digits := after.takeWhile Char.isDigit
        match digits, after.drop digits.length with
        | [], _ => none
        | ds, '\x7d' :: tail => some (digitsToNat ds, tail)
        | _, _ => none
      else none
  | _ => none

/-- `re.sub(_HASH_PLACEHOLDER_RE, λ m, digest[:n])`: left-to-right scan,
replacing each `\x7bhashN\x7d` with the first `N` digest characters. -/
def expandHashF (digest : List Char) : Nat → List Char → List Char
  | _, [] => []
  | 0, l => l
  | fuel + 1, c :: rest =>
      match parseHashPh (c :: rest) with
      | some (n, tail) => digest.take n ++ expandHashF digest fuel tail
      | none => c :: expandHashF digest fuel rest

/-- A Python `datetime` restricted to the fields `strftime` renders. -/
structure PyDateTime where
  year : Nat
  month : Nat
  day : Nat
  hour : Nat
  minute : Nat
  second : Nat
deriving DecidableEq, Repr

/-- Two-digit zero padding, as `%m`/`%d`/`%H`/`%M`/`%S` render. -/
def pad2 (n : Nat) : String := if n < 10 then "0" ++ toString n else toString n

/-- `datetime.strftime` for the directives the code base uses
(`%Y %m %d %H %M %S %%`); other text passes through literally.  Years are
rendered as their decimal digits (all dates in play are four-digit). -/
def strftime (d : PyDateTime) : List Char → List Char
  | [] => []
  | '%' :: c :: rest =>
      (if c = 'Y' then (toString d.year).toList
       else if c = 'm' then (pad2 d.month).toList
       else if c = 'd' then (pad2 d.day).toList
       else if c = 'H' then (pad2 d.hour).toList
       else if c = 'M' then (pad2 d.minute).toList
       else if c = 'S' then (pad2 d.second).toList
       else if c = '%' then ['%']
       else ['%', c]) ++ strftime d rest
  | c :: rest => c :: strftime d rest

/-- `re.sub(_DATE_PLACEHOLDER_RE, λ m, date.strftime(fmt))`. -/
def expandDateF (d : PyDateTime) : Nat → List Char → List Char
  | _, [] => []
  | 0, l => l
  | fuel + 1, c :: rest =>
      match parseDatePh (c :: rest) with
      | some (fmt, tail) => strftime d fmt ++ expandDateF d fuel tail
      | none => c :: expandDateF d fuel rest

/-- Python `s[-n:]` for `n > 0`: the last `n` characters (all of `s` when
`n ≥ len(s)`). -/
def takeLast (l : List Char) (n : Nat) : List Char := l.drop (l.length - n)

/-- `re.sub(_ORIG_LAST_RE, λ m, normalized[-n:] if n > 0 else "")`. -/
def expandOrigLastF (normalized : List Char) : Nat → List Char → List Char
  | _, [] => []
  | 0, l => l
  | fuel + 1, c :: rest =>
      match parseOrigLastPh (c :: rest) with
      | some (n, tail) =>
          (if 0 < n then takeLast normalized n else []) ++ expandOrigLastF normalized fuel tail
      | none => c :: expandOrigLastF normalized fuel rest

/-- The `hmac`/`hashlib` pair selected by the `algo` string.  Both
functions are pure in Python; the model carries them as explicit
function parameters.  `bytesMac key msg` is
`hmac.new(key, msg, getattr(hashlib, algo)).digest()` on byte strings;
`strMac key msg` is the same on `msg.encode("utf-8")`. -/
structure HmacAlgo where
  bytesMac : List Nat → List Nat → List Nat
  strMac : List Nat → String → List Nat

/-- `pseudonymizer.PseudonymizerConfig`: environment key, document key
(both byte strings) and the digest algorithm. -/
structure PseudonymizerConfig where
  env_key : List Nat
  doc_key : List Nat
  algo : HmacAlgo

/-- `pseudonymizer.Pseudonymizer`: configuration plus per-entity-type
counters (`self._counters`). -/
structure Pseudonymizer where
  config : PseudonymizerConfig
  counters : List (String × Nat)

/-- `Pseudonymizer.__init__`: store the keys, start with empty counters. -/
def mkPseudonymizer (env_key doc_key : List Nat) (algo : HmacAlgo) : Pseudonymizer :=
  ⟨⟨env_key, doc_key, algo⟩, []⟩

/-- `Pseudonymizer.set_document_key`: replace the document key and clear
every counter. -/
def set_document_key (p : Pseudonymizer) (doc_key : List Nat) : Pseudonymizer :=
  ⟨⟨p.config.env_key, doc_key, p.config.algo⟩, []⟩

/-- `self._counters.get(entity_type, 0)`. -/
def countersGet (cs : List (String × Nat)) (k : String) : Nat :=
  (cs.lookup k).getD 0

/-- `self._counters[entity_type] = v`. -/
def countersSet : List (String × Nat) → String → Nat → List (String × Nat)
  | [], k, v => [(k, v)]
  | (k', v') :: rest, k, v =>
      if k' = k then (k, v) :: rest else (k', v') :: countersSet rest k v

/-- `Pseudonymizer.next_index`: increment and return the per-type
counter. -/
def next_index (p : Pseudonymizer) (entity_type : String) : Nat × Pseudonymizer :=
  let current := countersGet p.counters entity_type + 1
  (current, { p with counters := countersSet p.counters entity_type current })

/-- `Pseudonymizer._scoped_key`: `HMAC(env_key, doc_key)` when the doc key
is non-empty, else the env key. -/
def _scoped_key (c : PseudonymizerConfig) : List Nat :=
  if c.doc_key ≠ [] then c.algo.bytesMac c.env_key c.doc_key else c.env_key

/-- One lowercase hex digit. -/
def hexDigit (n : Nat) : Char :=
  if n < 10 then Char.ofNat ('0'.toNat + n) else Char.ofNat ('a'.toNat + (n - 10))

/-- Lowercase hex rendering of a digest byte string (`hexdigest()`). -/
def toHexChars (bs : List Nat) : List Char :=
  bs.foldr (fun b acc => hexDigit ((b % 256) / 16) :: hexDigit (b % 16) :: acc) []

/-- `Pseudonymizer._digest_hex`: HMAC of the message under the scoped key,
rendered as lowercase hex. -/
def _digest_hex (c : PseudonymizerConfig) (message : String) : List Char :=
  toHexChars (c.algo.strMac (_scoped_key c) message)

/-- The `U+241F` delimiter of `Pseudonymizer.pseudonymize`. -/
def unitSep : String := String.mk [Char.ofNat 0x241F]

/-- The clock-free prefix of the `pseudonymize` template pipeline: the
intermediate string after the `\x7bindex\x7d` replacement, the conditional
`\x7bshape\x7d` replacement and the `\x7bhashN\x7d` pass, immediately
before the `\x7bdate:FMT\x7d` pass.  It depends only on the digest, the
normalized value, the resolved index and the template — never on the
clock. -/
def renderAfterHash (digest : List Char) (normalized : String) (idx : Nat)
    (template : String) : List Char :=
  let result := (pyReplace template "\x7bindex\x7d" (toString idx)).toList
  let result :=
    if containsSub "\x7bshape\x7d".toList result then
      (pyReplace (String.mk result) "\x7bshape\x7d" (_token_shape normalized)).toList
    else result
  expandHashF digest result.length result

/-- `Pseudonymizer.pseudonymize`.  `now` is the ambient clock
(`datetime.now(timezone.utc)`), used only when `date` is `none`;
`index = none` draws from the per-type counter (mutating it, hence the
returned state); `keep_parts` is `some n` when the Python argument is a
dict with an `int` value under `"last"`.  The template pipeline follows
the source order: `\x7bindex\x7d` replacement, conditional `\x7bshape\x7d`
replacement and the `\x7bhashN\x7d` pass (together `renderAfterHash`),
then the `\x7bdate:FMT\x7d` and `\x7borig_last:N\x7d` regex passes, then
the `keep_parts` suffix. -/
def pseudonymize (p : Pseudonymizer) (now : PyDateTime) (original_value : String)
    (entity_type : String) (template : String) (index : Option Nat)
    (date : Option PyDateTime) (keep_parts : Option Int) : String × Pseudonymizer :=
  let normalized := pyStrip original_value
  let step : Nat × Pseudonymizer :=
    match index with
    | some i => (i, p)
    | none => next_index p entity_type
  let idx := step.1
  let p := step.2
  let d := date.getD now
  let digest := _digest_hex p.config (entity_type ++ unitSep ++ normalized)
  let result := renderAfterHash digest normalized idx template
  let result := expandDateF d result.length result
  let result := expandOrigLastF normalized.toList result.length result
  let result :=
    match keep_parts with
    | some n =>
        if 0 < n ∧ ¬ (containsSub "\x7borig_last:".toList template.toList) then
          result ++ takeLast normalized.toList n.toNat
        else result
    | none => result
  (String.mk result, p)

/-- A concrete stand-in digest pair used by witnesses and
counterexamples (any pure function is admissible for them). -/
def trivAlgo : HmacAlgo :=
  ⟨fun key msg => [(key.length + msg.length) % 256],
   fun key msg => [(key.length + msg.length) % 256]⟩

/-- `policy.ALLOWED_ACTIONS`. -/
def ALLOWED_ACTIONS : List String := ["remove", "pseudonymize", "format", "placeholder"]

/-- Python `str.lower()`, character by character (Lean's `String.toLower`
is equivalent but does not kernel-reduce). -/
def pyLower (s : String) : String := String.mk (s.toList.map Char.toLower)

/-- Python `str.upper()`, character by character. -/
def pyUpper (s : String) : String := String.mk (s.toList.map Char.toUpper)

/-- One per-type action entry as supplied to
`policy.validate_and_normalize_policy`.  `action = none` models an absent
`"action"` key (default `"remove"`); `template = none` models an absent or
non-string `"template"` value (`isinstance(tmpl, str)` fails);
`keep_parts_last = some n` models `"keep_parts"` being a dict whose
`"last"` value is the `int` `n`. -/
structure RawCfg where
  action : Option String
  template : Option String
  keep_parts_last : Option Int
deriving DecidableEq, Repr

/-- An input policy dict for `validate_and_normalize_policy`.
`entities = none` models a non-list `"entities"` value; thresholds carry
only their numeric entries (non-numeric values are dropped by the source
before any behavior observed here); `preserve_length = some b` models the
key being present with truthiness `b`. -/
structure RawPolicy where
  mask_all : Bool
  entities : Option (List String)
  thresholds : List (String × Rat)
  actions : List (String × RawCfg)
  preserve_length : Option Bool
deriving Repr

/-- A normalized per-type action entry. -/
structure NormCfg where
  action : String
  template : Option String
  keep_parts : Option Int
deriving DecidableEq, Repr

/-- The normalized policy shape produced by
`validate_and_normalize_policy`. -/
structure NormPolicy where
  mask_all : Bool
  entities : List String
  thresholds : List (String × Rat)
  actions : List (String × NormCfg)
  preserve_length : Option Bool
deriving Repr

/-- Normalization of one action entry (`policy.py` lines 24-40):
lowercase the action, constrain it to `ALLOWED_ACTIONS` (default
`"remove"`), retain the template only for
`pseudonymize|placeholder|format`, retain `keep_parts.last` only when a
non-negative integer. -/
def normalizeCfg (cfg : RawCfg) : NormCfg :=
  let a := pyLower (cfg.action.getD "remove")
  let action := if a ∈ ALLOWED_ACTIONS then a else "remove"
  { action := action,
    template :=
      if action ∈ (["pseudonymize", "placeholder", "format"] : List String) then cfg.template
      else none,
    keep_parts :=
      match cfg.keep_parts_last with
      | some n => if 0 ≤ n then some n else none
      | none => none }

/-- The template-safety pass (`policy.py` lines 43-47): drop the template
field when it contains `\x7borig\x7d` or `\x7btext\x7d`. -/
def stripUnsafeTemplate (cfg : NormCfg) : NormCfg :=
  match cfg.template with
  | some t =>
      match containsSub "\x7borig\x7d".toList t.toList ||
          containsSub "\x7btext\x7d".toList t.toList with
      | true => { cfg with template := none }
      | false => cfg
  | none => cfg

/-- `policy.validate_and_normalize_policy`.  The argument is `none` when
the Python value is not a dict. -/
def validate_and_normalize_policy (policy : Option RawPolicy) : NormPolicy :=
  match policy with
  | none => ⟨false, [], [], [], none⟩
  | some p =>
      { mask_all := p.mask_all,
        entities := p.entities.getD [],
        thresholds := p.thresholds,
        actions := p.actions.map (fun kv => (kv.1, stripUnsafeTemplate (normalizeCfg kv.2))),
        preserve_length := p.preserve_length }

/-- Python `cfg.get("template") or default`: the default is used both when
the key is absent and when the template is falsy (the empty string). -/
def templateOr (o : Option String) (d : String) : String :=
  match o with
  | some t => if t.isEmpty then d else t
  | none => d

/-- `policy.build_text_pseudonymize_fn._map_default_template`. -/
def _map_default_template (entity_type : String) : String :=
  if entity_type = "person_name" then "NAME_\x7bhash8\x7d"
  else if entity_type = "address" then "ADDRESS_\x7bhash6\x7d"
  else if entity_type = "email" then "EMAIL_\x7bhash6\x7d@mask.local"
  else if entity_type = "phone" then "PHONE_\x7bhash6\x7d_\x7borig_last:4\x7d"
  else if entity_type = "postal_code" then "ZIP_\x7bhash4\x7d"
  else pyUpper entity_type ++ "_\x7bhash6\x7d"

/-- The closure returned by `policy.build_text_pseudonymize_fn`, applied
to one entity and its original text.  `actions.get(et, \x7b\x7d)` with a
missing key yields an empty dict whose `"action"` is `None`, which falls
through to the default branch; the four action strings dispatch as in the
source.  The pseudonymizer state threads through the result. -/
def build_text_pseudonymize_fn (policy : NormPolicy) (p : Pseudonymizer) (now : PyDateTime)
    (entity : Span) (original : String) : String × Pseudonymizer :=
  let et := entity.type
  match policy.actions.lookup et with
  | some cfg =>
      if cfg.action = "remove" then ("", p)
      else if cfg.action = "placeholder" then
        (templateOr cfg.template ("[" ++ et ++ "]"), p)
      else if cfg.action = "pseudonymize" then
        pseudonymize p now original et (templateOr cfg.template (_map_default_template et))
          none none cfg.keep_parts
      else if cfg.action = "format" then
        match cfg.keep_parts with
        | some n => pseudonymize p now original et "\x7bshape\x7d" none none (some n)
        | none => pseudonymize p now original et "\x7bshape\x7d" none none none
      else pseudonymize p now original et (_map_default_template et) none none none
  | none => pseudonymize p now original et (_map_default_template et) none none none

/-- The `mask_all` branch of `processor.process_text_file`:
`re.sub(r"[A-Za-z0-9]", "x", content)` — every Basic-Latin letter or digit
becomes `x`, every other character is kept. -/
def mask_all_content (content : List Char) : List Char :=
  content.map (fun c =>
    if ('A' ≤ c ∧ c ≤ 'Z') ∨ ('a' ≤ c ∧ c ≤ 'z') ∨ ('0' ≤ c ∧ c ≤ '9') then 'x' else c)

/-- Python slice index resolution for `text[a:b]` on a text of the given
length: negative indices count from the end, then clamp into range. -/
def pyIdx (len : Nat) (i : Int) : Nat :=
  (if i < 0 then max (i + len) 0 else min i len).toNat

/-- Python `text[a:b]`. -/
def pySlice (l : List Char) (a b : Int) : List Char :=
  (l.take (pyIdx l.length b)).drop (pyIdx l.length a)

/-- The span walk of `redaction.mask_text_spans` under the defaults used
by the text pipeline (`masking_char='x'`, `preserve_length=True`, no
`pseudonymize_fn`): clamp the start to the previous end, skip emptied
spans, emit the untouched run then an `x`-run of the span's length. -/
def maskWalk (text : List Char) (last : Int) : List Span → List Char
  | [] => pySlice text last text.length
  | e :: rest =>
      let s := if e.start < last then last else e.start
      if e.stop ≤ s then maskWalk text last rest
      else
        pySlice text last s ++ List.replicate (e.stop - s).toNat 'x' ++ maskWalk text e.stop rest

/-- `redaction.mask_text_spans` (default arguments): sort by start
(stably) and walk. -/
def mask_text_spans (text : List Char) (entities : List Span) : List Char :=
  if entities.isEmpty then text
  else maskWalk text 0 (List.insertionSort (fun a b => a.start ≤ b.start) entities)

/-- A detector as the pipeline sees it: a Python callable over the content
and the selected types that can either return spans or raise
(`Except.error`). -/
def DetectorFn : Type := String → List String → Except String (List Span)

/-- The effect of a `try: ... extend(fn(...)) except Exception: pass`
around a detector call: an error contributes no spans. -/
def safeCall (f : DetectorFn) (text : String) (selected : List String) : List Span :=
  match f text selected with
  | .ok r => r
  | .error _ => []

/-- `registry._safe_wrap`: same conversion, packaged as a detector that
never raises. -/
def _safe_wrap (f : DetectorFn) : DetectorFn :=
  fun text selected =>
    match f text selected with
    | .ok r => .ok r
    | .error _ => .ok []

/-- `registry.DetectorRegistry.run_selected`: run every registered
detector in order, each inside `try/except: continue`, concatenating the
results. -/
def run_selected (dets : List DetectorFn) (text : String) (selected : List String) :
    List Span :=
  dets.foldl (fun results f => results ++ safeCall f text selected) []

/-- The seven concrete detectors `processor.process_text_file` invokes. -/
structure Detectors where
  rules : DetectorFn
  ner : DetectorFn
  address : DetectorFn
  secrets : DetectorFn
  identifiers : DetectorFn
  phi : DetectorFn
  domain : DetectorFn

/-- The policy dict as `process_text_file` reads it: `get("mask_all")`
truthiness, `get("entities", []) or []`, and the thresholds consulted by
`filter_by_policy`. -/
structure ProcPolicy where
  mask_all : Bool
  entities : List String
  thresholds : List (String × Rat)

/-- The content transformation of `processor.process_text_file` (lines
79-114), file I/O elided per the shallow embedding: `mask_all` bypasses
detection entirely; otherwise the rules detector runs bare (an exception
escapes to the outer handler, producing an error result, modelled as
`Except.error`), the six remaining detectors run inside
`try/except: pass`, and the span stream is aggregated, filtered and
rewritten. -/
def process_text_content (D : Detectors) (policy : ProcPolicy) (content : String) :
    Except String String :=
  if policy.mask_all then .ok (String.mk (mask_all_content content.toList))
  else
    let selected := policy.entities
    match D.rules content selected with
    | .error e => .error e
    | .ok r0 =>
        let entities := r0
          ++ safeCall D.ner content selected
          ++ safeCall D.address content selected
          ++ safeCall D.secrets content selected
          ++ safeCall D.identifiers content selected
          ++ safeCall D.phi content selected
          ++ safeCall D.domain content selected
        let entities := merge_overlaps entities
        let entities := filter_by_policy entities (some ⟨policy.entities, policy.thresholds⟩)
        .ok (String.mk (mask_text_spans content.toList entities))

/-- A detector returning no spans and never raising. -/
def emptyDetector : DetectorFn := fun _ _ => .ok []

/-- Detector set whose members all succeed with no spans. -/
def quietDetectors : Detectors :=
  ⟨emptyDetector, emptyDetector, emptyDetector, emptyDetector,
   emptyDetector, emptyDetector, emptyDetector⟩

/-- Detector set whose rules detector raises and whose others are quiet:
exercises the unprotected `detect_entities_rules` call of
`process_text_file`. -/
def rulesFailDetectors : Detectors :=
  { quietDetectors with rules := fun _ _ => .error "boom" }

/-- The operations that touch a `Pseudonymizer`'s counters during its
lifetime: `next_index` (also reached through `pseudonymize` with
`index=None`) and `set_document_key`. -/
inductive PseudoOp where
  | nextIndex (entity_type : String)
  | setDocKey (doc_key : List Nat)

/-- Run a list of counter operations, returning the trace of
`(entity_type, returned index)` pairs of the `next_index` calls and the
final state. -/
def runOps (p : Pseudonymizer) : List PseudoOp → List (String × Nat) × Pseudonymizer
  | [] => ([], p)
  | .nextIndex t :: rest =>
      let step := next_index p t
      let tail := runOps step.2 rest
      ((t, step.1) :: tail.1, tail.2)
  | .setDocKey k :: rest => runOps (set_document_key p k) rest

/-- The indices a trace returned for one entity type, in order. -/
def outFor (t : String) (trace : List (String × Nat)) : List Nat :=
  (trace.filter (fun x => decide (x.1 = t))).map (fun x => x.2)

/-- Number of `next_index` calls for a type in an operation list. -/
def countNI (t : String) (ops : List PseudoOp) : Nat :=
  ops.countP (fun op => match op with
    | .nextIndex t' => decide (t' = t)
    | _ => false)

/-- No `set_document_key` occurs in the operation list. -/
def NoReset (ops : List PseudoOp) : Prop :=
  (ops.all fun op => match op with
    | .setDocKey _ => false
    | _ => true) = true

instance (ops : List PseudoOp) : Decidable (NoReset ops) :=
  inferInstanceAs (Decidable (_ = true))

/-- The rational 0.8 in reduced constructor form (the `OfScientific`
literal does not kernel-reduce, which the concrete examples need). -/
def q08 : Rat := ⟨4, 5, by decide, by decide⟩

/-- The rational 0.9 in reduced constructor form. -/
def q09 : Rat := ⟨9, 10, by decide, by decide⟩

/-- The rational 0.7 in reduced constructor form. -/
def q07 : Rat := ⟨7, 10, by decide, by decide⟩

/-- The seed example of spec §8 scenario 3:
`[(email,5,10,0.8),(email,8,12,0.9),(phone,20,30,0.7)]`. -/
def exampleSpans : List Span :=
  [⟨"email", 5, 10, some q08⟩, ⟨"email", 8, 12, some q09⟩, ⟨"phone", 20, 30, some q07⟩]

/-- Input on which aggregation leaves two overlapping same-type spans: a
different-type span in between breaks the merge chain. -/
def interleavedSpans : List Span :=
  [⟨"email", 0, 10, none⟩, ⟨"phone", 1, 2, none⟩, ⟨"email", 3, 5, none⟩]

/-- Input on which `merge_overlaps` is not idempotent: the grown first
`email` span leaves the output unsorted, so a second pass reorders it. -/
def regrownSpans : List Span :=
  [⟨"phone", 0, 5, none⟩, ⟨"email", 0, 4, none⟩, ⟨"email", 3, 20, none⟩]

/-- A raw policy carrying an original-echoing template (as in the
`test_template_forbid_original_echo` unit test). -/
def rawUnsafeCfg : RawCfg := ⟨some "pseudonymize", some "\x7borig\x7d", none⟩

/-- The raw policy wrapping `rawUnsafeCfg` under the `email` type. -/
def rawUnsafePolicy : RawPolicy :=
  ⟨false, some ["email"], [], [("email", rawUnsafeCfg)], none⟩

/-! ### Helper lemmas -/

theorem stripUnsafeTemplate_action (nc : NormCfg) :
    (stripUnsafeTemplate nc).action = nc.action := by
  rcases nc with ⟨a, t, k⟩
  cases t with
  | none => rfl
  | some t0 =>
      cases hb : containsSub "\x7borig\x7d".toList t0.toList ||
          containsSub "\x7btext\x7d".toList t0.toList <;>
        · simp only [stripUnsafeTemplate]
          rw [hb]

theorem stripUnsafeTemplate_keep_parts (nc : NormCfg) :
    (stripUnsafeTemplate nc).keep_parts = nc.keep_parts := by
  rcases nc with ⟨a, t, k⟩
  cases t with
  | none => rfl
  | some t0 =>
      cases hb : containsSub "\x7borig\x7d".toList t0.toList ||
          containsSub "\x7btext\x7d".toList t0.toList <;>
        · simp only [stripUnsafeTemplate]
          rw [hb]

theorem stripUnsafeTemplate_template (nc : NormCfg) :
    (stripUnsafeTemplate nc).template = none ∨
      ∃ t, nc.template = some t ∧ (stripUnsafeTemplate nc).template = some t ∧
        containsSub "\x7borig\x7d".toList t.toList = false ∧
        containsSub "\x7btext\x7d".toList t.toList = false := by
  rcases nc with ⟨a, t, k⟩
  cases t with
  | none => exact Or.inl rfl
  | some t0 =>
      cases hb : containsSub "\x7borig\x7d".toList t0.toList ||
          containsSub "\x7btext\x7d".toList t0.toList
      · rcases Bool.or_eq_false_iff.mp hb with ⟨h1, h2⟩
        refine Or.inr ⟨t0, rfl, ?_, h1, h2⟩
        simp only [stripUnsafeTemplate]
        rw [hb]
      · refine Or.inl ?_
        simp only [stripUnsafeTemplate]
        rw [hb]

theorem normalizeCfg_template (rcfg : RawCfg) :
    (normalizeCfg rcfg).template = none ∨ (normalizeCfg rcfg).template = rcfg.template := by
  by_cases h : (if pyLower (rcfg.action.getD "remove") ∈ ALLOWED_ACTIONS
      then pyLower (rcfg.action.getD "remove") else "remove") ∈
      (["pseudonymize", "placeholder", "format"] : List String)
  · exact Or.inr (by simp [normalizeCfg, h])
  · exact Or.inl (by simp [normalizeCfg, h])

theorem pyMax_eq_max (a b : Rat) : pyMax a b = max a b := by
  rw [pyMax, max_comm]
  rcases lt_or_ge a b with h | h
  · rw [if_pos h, max_eq_left (le_of_lt h)]
  · rw [if_neg (not_lt.mpr h), max_eq_right h]

theorem mergeLE_start {a b : Span} (h : mergeLE a b) : a.start ≤ b.start := by
  rcases h with h | ⟨h, _⟩
  · exact le_of_lt h
  · exact le_of_eq h

theorem mergeWalk_cons :
    ∀ (l : List Span) (c : Span),
      ∃ d t, mergeWalk c l = d :: t ∧ d.start = c.start ∧ d.type = c.type
  | [], c => ⟨c, [], rfl, rfl, rfl⟩
  | e :: rest, c => by
      by_cases h : e.start ≤ c.stop ∧ e.type = c.type
      · obtain ⟨d, t, hw, hs, ht⟩ := mergeWalk_cons rest
          { c with stop := max c.stop e.stop,
                   score := some (pyMax (c.score.getD 0) (e.score.getD 0)) }
        exact ⟨d, t, by simpa [mergeWalk, h] using hw, hs, ht⟩
      · exact ⟨c, mergeWalk e rest, by simp [mergeWalk, h], rfl, rfl⟩

theorem mergeWalk_chain :
    ∀ (l : List Span) (c : Span), List.Chain' NoMergePair (mergeWalk c l)
  | [], c => by simp [mergeWalk]
  | e :: rest, c => by
      by_cases h : e.start ≤ c.stop ∧ e.type = c.type
      · simpa [mergeWalk, h] using
          mergeWalk_chain rest
            { c with stop := max c.stop e.stop,
                     score := some (pyMax (c.score.getD 0) (e.score.getD 0)) }
      · obtain ⟨d, t, hw, hs, ht⟩ := mergeWalk_cons rest e
        have hchain := mergeWalk_chain rest e
        rw [hw] at hchain
        simp only [mergeWalk, if_neg h, hw]
        exact List.Chain'.cons (by rw [NoMergePair, hs, ht]; exact h) hchain

theorem mergeWalk_valid :
    ∀ (l : List Span) (c : Span) {n : Int}, ValidSpan n c → (∀ s ∈ l, ValidSpan n s) →
      ∀ s ∈ mergeWalk c l, ValidSpan n s
  | [], c, n, hc, _, s, hs => by
      simp only [mergeWalk, List.mem_singleton] at hs
      exact hs ▸ hc
  | e :: rest, c, n, hc, hl, s, hs => by
      by_cases h : e.start ≤ c.stop ∧ e.type = c.type
      · rw [mergeWalk, if_pos h] at hs
        have he : ValidSpan n e := hl e (List.mem_cons_self _ _)
        refine mergeWalk_valid rest
          { c with stop := max c.stop e.stop,
                   score := some (pyMax (c.score.getD 0) (e.score.getD 0)) }
          ⟨hc.1, ?_, ?_⟩ (fun x hx => hl x (List.mem_cons_of_mem _ hx)) s hs
        · exact lt_of_lt_of_le hc.2.1 (le_max_left _ _)
        · exact max_le hc.2.2 he.2.2
      · rw [mergeWalk, if_neg h] at hs
        rcases List.mem_cons.mp hs with hs | hs
        · exact hs ▸ hc
        · exact mergeWalk_valid rest e (hl e (List.mem_cons_self _ _))
            (fun x hx => hl x (List.mem_cons_of_mem _ hx)) s hs

theorem mergeWalk_of_chain :
    ∀ (l : List Span) (c : Span), List.Chain' NoMergePair (c :: l) → mergeWalk c l = c :: l
  | [], _, _ => rfl
  | e :: rest, c, h => by
      rcases List.chain'_cons.mp h with ⟨hne, htail⟩
      rw [mergeWalk, if_neg hne, mergeWalk_of_chain rest e htail]

theorem merge_overlaps_chain (l : List Span) :
    List.Chain' NoMergePair (merge_overlaps l) := by
  rw [merge_overlaps]
  cases List.insertionSort mergeLE l with
  | nil => simp
  | cons a rest => exact mergeWalk_chain rest a

theorem merge_overlaps_valid {n : Int} {l : List Span} (h : ∀ s ∈ l, ValidSpan n s) :
    ∀ s ∈ merge_overlaps l, ValidSpan n s := by
  have hmem : ∀ s ∈ List.insertionSort mergeLE l, ValidSpan n s := by
    intro s hs
    exact h s ((List.mem_insertionSort mergeLE).mp hs)
  rw [merge_overlaps]
  cases hsort : List.insertionSort mergeLE l with
  | nil => simp
  | cons a rest =>
      rw [hsort] at hmem
      exact mergeWalk_valid rest a (hmem a (List.mem_cons_self _ _))
        (fun x hx => hmem x (List.mem_cons_of_mem _ hx))

theorem mergeWalkSpec_eq :
    ∀ (l : List Span) (c : Span), (∀ e ∈ l, c.start ≤ e.start) →
      List.Pairwise (fun a b => a.start ≤ b.start) l → mergeWalkSpec c l = mergeWalk c l
  | [], _, _, _ => rfl
  | e :: rest, c, hc, hp => by
      rcases List.pairwise_cons.mp hp with ⟨he, hrest⟩
      by_cases h : e.start ≤ c.stop ∧ e.type = c.type
      · rw [mergeWalkSpec, if_pos h, mergeWalk, if_pos h]
        have hce : c.start ≤ e.start := hc e (List.mem_cons_self _ _)
        have hstep :
            mergeStepSpec c e =
              { c with stop := max c.stop e.stop,
                       score := some (pyMax (c.score.getD 0) (e.score.getD 0)) } := by
          simp [mergeStepSpec, min_eq_left hce]
        rw [hstep]
        exact mergeWalkSpec_eq rest _
          (fun x hx => hc x (List.mem_cons_of_mem _ hx)) hrest
      · rw [mergeWalkSpec, if_neg h, mergeWalk, if_neg h, mergeWalkSpec_eq rest e he hrest]

theorem merge_overlaps_eq_spec (l : List Span) :
    merge_overlaps l = mergeOverlapsSpec l := by
  rw [merge_overlaps, mergeOverlapsSpec]
  have hsorted : List.Sorted mergeLE (List.insertionSort mergeLE l) :=
    List.sorted_insertionSort mergeLE l
  cases hs : List.insertionSort mergeLE l with
  | nil => rfl
  | cons a rest =>
      rw [hs] at hsorted
      rcases List.pairwise_cons.mp hsorted with ⟨ha, hrest⟩
      exact (mergeWalkSpec_eq rest a (fun e he => mergeLE_start (ha e he))
        (hrest.imp mergeLE_start)).symm

theorem countersGet_set_self (cs : List (String × Nat)) (k : String) (v : Nat) :
    countersGet (countersSet cs k v) k = v := by
  induction cs with
  | nil => simp [countersGet, countersSet, List.lookup_cons]
  | cons hd tl ih =>
      rcases hd with ⟨k', v'⟩
      by_cases h : k' = k
      · simp [countersSet, h, countersGet, List.lookup_cons]
      · simpa [countersSet, h, countersGet, List.lookup_cons,
          beq_false_of_ne (Ne.symm h)] using ih

theorem countersGet_set_ne (cs : List (String × Nat)) {k k' : String} (v : Nat)
    (h : k ≠ k') : countersGet (countersSet cs k v) k' = countersGet cs k' := by
  induction cs with
  | nil => simp [countersGet, countersSet, List.lookup_cons, beq_false_of_ne (Ne.symm h)]
  | cons hd tl ih =>
      rcases hd with ⟨k0, v0⟩
      by_cases hh : k0 = k
      · subst hh
        simp [countersSet, countersGet, List.lookup_cons, beq_false_of_ne (Ne.symm h)]
      · by_cases hk' : k' = k0
        · simp [countersSet, hh, countersGet, List.lookup_cons, hk']
        · simpa [countersSet, hh, countersGet, List.lookup_cons,
            beq_false_of_ne hk'] using ih

theorem outFor_cons_self (t : String) (v : Nat) (l : List (String × Nat)) :
    outFor t ((t, v) :: l) = v :: outFor t l := by
  simp [outFor]

theorem outFor_cons_ne {t t' : String} (h : t' ≠ t) (v : Nat) (l : List (String × Nat)) :
    outFor t ((t', v) :: l) = outFor t l := by
  simp [outFor, h]

theorem countNI_cons_self (t : String) (ops : List PseudoOp) :
    countNI t (.nextIndex t :: ops) = countNI t ops + 1 := by
  simp [countNI, List.countP_cons]

theorem countNI_cons_ne {t t' : String} (h : t' ≠ t) (ops : List PseudoOp) :
    countNI t (.nextIndex t' :: ops) = countNI t ops := by
  simp [countNI, List.countP_cons, h]

theorem runOps_nextIndex (p : Pseudonymizer) (t : String) (rest : List PseudoOp) :
    runOps p (.nextIndex t :: rest) =
      ((t, (next_index p t).1) :: (runOps (next_index p t).2 rest).1,
        (runOps (next_index p t).2 rest).2) := rfl

theorem next_index_fst (p : Pseudonymizer) (t : String) :
    (next_index p t).1 = countersGet p.counters t + 1 := rfl

theorem next_index_counters (p : Pseudonymizer) (t : String) :
    countersGet (next_index p t).2.counters t = countersGet p.counters t + 1 := by
  simp [next_index, countersGet_set_self]

theorem runOps_outFor (t : String) :
    ∀ (ops : List PseudoOp) (p : Pseudonymizer), NoReset ops →
      outFor t (runOps p ops).1 = List.range' (countersGet p.counters t + 1) (countNI t ops)
  | [], p, _ => by simp [runOps, outFor, countNI, List.range']
  | .nextIndex t' :: rest, p, h => by
      have hrest : NoReset rest := by
        simpa [NoReset, List.all_cons] using h
      have ihr := runOps_outFor t rest (next_index p t').2 hrest
      by_cases ht : t' = t
      · subst ht
        rw [next_index_counters] at ihr
        rw [runOps_nextIndex, outFor_cons_self, ihr, next_index_fst,
          countNI_cons_self]
        rfl
      · simp only [next_index] at ihr
        rw [countersGet_set_ne p.counters _ ht] at ihr
        rw [runOps_nextIndex, outFor_cons_ne ht, countNI_cons_ne ht]
        exact ihr
  | .setDocKey _ :: _, _, h => by
      simp [NoReset, List.all_cons] at h

theorem lookup_map_value {α β : Type} (f : α → β) (k : String) :
    ∀ (l : List (String × α)),
      (l.map (fun kv => (kv.1, f kv.2))).lookup k = (l.lookup k).map f
  | [] => rfl
  | (k', v) :: rest => by
      by_cases h : k = k'
      · simp [List.lookup, h]
      · simpa [List.lookup, beq_false_of_ne h] using lookup_map_value f k rest

theorem safeCall_safe_wrap (f : DetectorFn) (text : String) (sel : List String) :
    safeCall (_safe_wrap f) text sel = safeCall f text sel := by
  cases h : f text sel <;> simp [safeCall, _safe_wrap, h]

theorem lookup_normalized_actions (rp : RawPolicy) (et : String) :
    (validate_and_normalize_policy (some rp)).actions.lookup et =
      (rp.actions.lookup et).map (fun c => stripUnsafeTemplate (normalizeCfg c)) := by
  simpa [validate_and_normalize_policy] using
    lookup_map_value (fun c => stripUnsafeTemplate (normalizeCfg c)) et rp.actions

theorem containsSub_cons_false {pat : List Char} {c : Char} {rest : List Char}
    (h : containsSub pat (c :: rest) = false) :
    pat.isPrefixOf (c :: rest) = false ∧ containsSub pat rest = false := by
  rw [containsSub] at h
  exact Bool.or_eq_false_iff.mp h

theorem parseDatePh_startsWithDate :
    ∀ {l : List Char} {x : List Char × List Char},
      parseDatePh l = some x → "\x7bdate:".toList.isPrefixOf l = true := by
  intro l x h
  cases l with
  | nil => simp [parseDatePh] at h
  | cons c rest =>
      by_cases hc : c = '\x7b'
      · subst hc
        by_cases hp : "date:".toList.isPrefixOf rest = true
        · have hp' : "date:".toList <+: rest := List.isPrefixOf_iff_prefix.mp hp
          show ('\x7b' :: "date:".toList).isPrefixOf ('\x7b' :: rest) = true
          rw [List.isPrefixOf_iff_prefix]
          obtain ⟨tail, htail⟩ := hp'
          exact ⟨tail, by rw [List.cons_append, htail]⟩
        · rw [parseDatePh, if_neg hp] at h
          cases h
      · rw [show parseDatePh (c :: rest) = none from by
            unfold parseDatePh
            split
            · next heq => rw [List.cons.injEq] at heq; exact absurd heq.1 hc
            · rfl] at h
        cases h

theorem expandDateF_of_not_contains (d : PyDateTime) :
    ∀ (fuel : Nat) (l : List Char),
      containsSub "\x7bdate:".toList l = false → expandDateF d fuel l = l := by
  intro fuel
  induction fuel with
  | zero => intro l _; cases l <;> rfl
  | succ fuel ih =>
      intro l h
      cases l with
      | nil => rfl
      | cons c rest =>
          obtain ⟨h1, h2⟩ := containsSub_cons_false h
          rw [expandDateF]
          cases hp : parseDatePh (c :: rest) with
          | none => rw [ih rest h2]
          | some x => rw [parseDatePh_startsWithDate hp] at h1; cases h1

/-! ### Claims -/

/-- Claim C2 (counterexample to the claim as stated): on the valid span
list `interleavedSpans` (all spans within an input of length 10),
`merge_overlaps` outputs the first and third span with the same type
`email` while they overlap (`3 < 10` and `0 < 5`): a different-type span
sorted between two same-type spans breaks the merge chain, so same-type
output spans are not pairwise disjoint. -/
theorem claim2_counterexample :
    (∀ s ∈ interleavedSpans, ValidSpan 10 s) ∧
      merge_overlaps interleavedSpans =
        [⟨"email", 0, 10, none⟩, ⟨"phone", 1, 2, none⟩, ⟨"email", 3, 5, none⟩] ∧
      (Span.type ⟨"email", 0, 10, none⟩ = Span.type ⟨"email", 3, 5, none⟩ ∧
        Span.start ⟨"email", 3, 5, none⟩ < Span.stop ⟨"email", 0, 10, none⟩ ∧
        Span.start ⟨"email", 0, 10, none⟩ < Span.stop ⟨"email", 3, 5, none⟩) := by
  decide

/-- Claim C2 (amended): for every list of valid spans (half-open,
non-empty, within the bounds of an input of length `n`), every span
`merge_overlaps` outputs satisfies `0 ≤ start < end ≤ n`, and no two
CONSECUTIVE output spans of the same type overlap (the adjacent pair even
satisfies `previous.end < next.start`).  The original claim's pairwise
disjointness of all same-type output spans fails, see the
counterexample. -/
theorem claim2_merge_bounds_adjacent_disjoint (n : Int) (l : List Span)
    (h : ∀ s ∈ l, ValidSpan n s) :
    (∀ s ∈ merge_overlaps l, ValidSpan n s) ∧
      List.Chain' (fun a b => a.type = b.type → a.stop < b.start) (merge_overlaps l) := by
  refine ⟨merge_overlaps_valid h, (merge_overlaps_chain l).imp ?_⟩
  intro a b hab htype
  by_contra hlt
  exact hab ⟨not_lt.mp hlt, htype.symm⟩

/-- Claim C2 witness: the amended theorem applied to the spec §8
example spans inside an input of length 30. -/
theorem claim2_witness :
    (∀ s ∈ merge_overlaps exampleSpans, ValidSpan 30 s) ∧
      List.Chain' (fun a b => a.type = b.type → a.stop < b.start)
        (merge_overlaps exampleSpans) :=
  claim2_merge_bounds_adjacent_disjoint 30 exampleSpans (by decide)

/-- Claim C3: `merge_overlaps` sorts by (start ascending, end descending)
and walks once, merging consecutive spans exactly when they share a type
and `next.start ≤ current.end`, each merged span being the union with the
maximal score — stated as extensional equality with `mergeOverlapsSpec`,
the spec-worded algorithm — and the spec §8 example
`[(email,5,10,0.8),(email,8,12,0.9),(phone,20,30,0.7)]` yields exactly
`[(email,5,12,0.9),(phone,20,30,0.7)]`. -/
theorem claim3_merge_algorithm :
    (∀ l : List Span, merge_overlaps l = mergeOverlapsSpec l) ∧
      merge_overlaps exampleSpans =
        [⟨"email", 5, 12, some q09⟩, ⟨"phone", 20, 30, some q07⟩] :=
  ⟨merge_overlaps_eq_spec, by decide⟩

/-- Claim C4: for every span list and every dict policy,
`filter_by_policy` preserves input order (the output is a sublist of the
input), returns `[]` whenever `policy.entities` is empty, and keeps
exactly the spans whose type is selected and whose effective score
(`e.get("score", 1.0)`) is at least the type's threshold (0 when
unset). -/
theorem claim4_filter_by_policy_spec :
    (∀ (l : List Span) (p : FilterPolicy), List.Sublist (filter_by_policy l (some p)) l) ∧
      (∀ (l : List Span) (p : FilterPolicy), p.entities = [] →
        filter_by_policy l (some p) = []) ∧
      (∀ (l : List Span) (p : FilterPolicy) (e : Span),
        e ∈ filter_by_policy l (some p) ↔
          e ∈ l ∧ p.entities ≠ [] ∧ e.type ∈ p.entities ∧
            (p.thresholds.lookup e.type).getD 0 ≤ e.score.getD 1) := by
  refine ⟨?_, ?_, ?_⟩
  · intro l p
    by_cases h : p.entities.isEmpty
    · simp [filter_by_policy, h]
    · simp only [filter_by_policy, h, Bool.false_eq_true, if_false]
      exact List.filter_sublist l
  · intro l p h
    simp [filter_by_policy, h]
  · intro l p e
    by_cases h : p.entities.isEmpty
    · have hnil : p.entities = [] := by simpa using h
      simp [filter_by_policy, h, hnil]
    · have hne : p.entities ≠ [] := by simpa using h
      simp [filter_by_policy, h, hne, List.mem_filter]

/-- Claim C4 witness: on the example spans, the empty-selection policy
filters everything out, and with `email`/`phone` selected under an email
threshold of 0.7 the phone span is retained. -/
theorem claim4_witness :
    filter_by_policy exampleSpans (some ⟨[], [("email", q07)]⟩) = [] ∧
      (⟨"phone", 20, 30, some q07⟩ : Span) ∈
        filter_by_policy exampleSpans (some ⟨["email", "phone"], [("email", q07)]⟩) :=
  ⟨claim4_filter_by_policy_spec.2.1 exampleSpans ⟨[], [("email", q07)]⟩ rfl,
    (claim4_filter_by_policy_spec.2.2 exampleSpans
      ⟨["email", "phone"], [("email", q07)]⟩ ⟨"phone", 20, 30, some q07⟩).mpr (by decide)⟩

/-- Claim C9 (counterexample to the claim as stated): `merge_overlaps` is
not idempotent.  On `regrownSpans` the first pass grows an `email` span to
`(0, 20)` after having emitted the `phone` span `(0, 5)`, so its output is
no longer sorted by (start, -end); the second pass re-sorts and returns
the two spans in the opposite order. -/
theorem claim9_counterexample :
    merge_overlaps (merge_overlaps regrownSpans) ≠ merge_overlaps regrownSpans := by
  decide

/-- Claim C9 (amended): `merge_overlaps (merge_overlaps x) =
merge_overlaps x` for every `x` whose first-pass output is still sorted by
(start ascending, end descending); re-application never merges anything
further and can only reorder (as in the counterexample). -/
theorem claim9_idempotent_on_sorted (l : List Span)
    (h : List.Sorted mergeLE (merge_overlaps l)) :
    merge_overlaps (merge_overlaps l) = merge_overlaps l := by
  have hchain := merge_overlaps_chain l
  conv_lhs => rw [merge_overlaps]
  rw [List.Sorted.insertionSort_eq h]
  cases hy : merge_overlaps l with
  | nil => rfl
  | cons a rest =>
      rw [hy] at hchain
      exact mergeWalk_of_chain rest a hchain

/-- Claim C9 witness: the amended theorem applied to the spec §8 example
spans, whose merge output is sorted. -/
theorem claim9_witness :
    merge_overlaps (merge_overlaps exampleSpans) = merge_overlaps exampleSpans :=
  claim9_idempotent_on_sorted exampleSpans (by decide)

/-- Claim C10: when the policy argument is not a dict (`none` in the
model, e.g. Python `None`), `filter_by_policy` returns the input entity
list unchanged. -/
theorem claim10_filter_non_dict_passthrough (l : List Span) :
    filter_by_policy l none = l := rfl

/-- Claim C6: a policy with `mask_all` set skips detection (the result is
the same for every detector set), replaces exactly the characters matching
`[A-Za-z0-9]` with `x` (position by position) while leaving every other
character unchanged, preserves the length, and maps the seed input
`"your name: abc"` to `"xxxx xxxx: xxx"`. -/
theorem claim6_mask_all :
    (∀ (D : Detectors) (policy : ProcPolicy) (content : String),
        policy.mask_all = true →
          process_text_content D policy content =
            .ok (String.mk (mask_all_content content.toList))) ∧
      (∀ l : List Char, (mask_all_content l).length = l.length) ∧
      (∀ (l : List Char) (i : Nat), i < l.length →
        (mask_all_content l).getD i ' ' =
          (if ('A' ≤ l.getD i ' ' ∧ l.getD i ' ' ≤ 'Z') ∨
              ('a' ≤ l.getD i ' ' ∧ l.getD i ' ' ≤ 'z') ∨
              ('0' ≤ l.getD i ' ' ∧ l.getD i ' ' ≤ '9')
            then 'x' else l.getD i ' ')) ∧
      (∀ D : Detectors,
        process_text_content D ⟨true, [], []⟩ "your name: abc" = .ok "xxxx xxxx: xxx") := by
  refine ⟨?_, ?_, ?_, ?_⟩
  · intro D policy content hm
    simp [process_text_content, hm]
  · intro l
    simp [mask_all_content]
  · intro l i hi
    have hmem : l[i]? = some l[i] := List.getElem?_eq_getElem hi
    simp [mask_all_content, List.getD_eq_getElem?_getD, List.getElem?_map, hmem]
  · intro D
    rfl

/-- Claim C6 witness: `mask_all` masking applied at concrete inputs: the
pipeline on the quiet detector set, and the pointwise characterization at
position 0 of `"a:"`. -/
theorem claim6_witness :
    process_text_content quietDetectors ⟨true, [], []⟩ "your name: abc" =
        .ok (String.mk (mask_all_content "your name: abc".toList)) ∧
      (mask_all_content "a:".toList).getD 0 ' ' =
        (if ('A' ≤ "a:".toList.getD 0 ' ' ∧ "a:".toList.getD 0 ' ' ≤ 'Z') ∨
            ('a' ≤ "a:".toList.getD 0 ' ' ∧ "a:".toList.getD 0 ' ' ≤ 'z') ∨
            ('0' ≤ "a:".toList.getD 0 ' ' ∧ "a:".toList.getD 0 ' ' ≤ '9')
          then 'x' else "a:".toList.getD 0 ' ') :=
  ⟨claim6_mask_all.1 quietDetectors ⟨true, [], []⟩ "your name: abc" rfl,
    claim6_mask_all.2.2.1 "a:".toList 0 (by decide)⟩

/-- Claim C7 (counterexample to the claim as stated): not every detector
failure is isolated.  `process_text_file` calls `detect_entities_rules`
outside any `try/except` (processor.py line 87), so a rules detector that
raises aborts the whole run with an error result instead of contributing
an empty span list. -/
theorem claim7_counterexample :
    process_text_content rulesFailDetectors ⟨false, ["email"], []⟩ "hi" =
      .error "boom" := rfl

/-- Claim C7 (amended): every detector except the bare
`detect_entities_rules` call of `process_text_file` is isolated:
`registry._safe_wrap` converts an erroring detector into one returning the
empty list; `DetectorRegistry.run_selected` drops an erroring detector's
contribution entirely (every registered detector, rules included, runs
inside `try/except: continue` there); and in the text pipeline an error in
the `ner` slot (likewise any of the six wrapped slots, whose calls factor
through `safeCall`) leaves the run's result unchanged, the remaining
detectors and stages still running. -/
theorem claim7_detector_isolation :
    (∀ (f : DetectorFn) (text : String) (sel : List String) (err : String),
        f text sel = .error err → _safe_wrap f text sel = .ok []) ∧
      (∀ (pre post : List DetectorFn) (f : DetectorFn) (text : String)
          (sel : List String) (err : String),
        f text sel = .error err →
          run_selected (pre ++ f :: post) text sel = run_selected (pre ++ post) text sel) ∧
      (∀ (D : Detectors) (policy : ProcPolicy) (content : String) (err : String),
        D.ner content policy.entities = .error err →
          process_text_content D policy content =
            process_text_content { D with ner := emptyDetector } policy content) ∧
      (∀ (D : Detectors) (policy : ProcPolicy) (content : String),
        process_text_content D policy content =
          process_text_content
            { D with ner := _safe_wrap D.ner, address := _safe_wrap D.address,
                     secrets := _safe_wrap D.secrets, identifiers := _safe_wrap D.identifiers,
                     phi := _safe_wrap D.phi, domain := _safe_wrap D.domain }
            policy content) := by
  refine ⟨?_, ?_, ?_, ?_⟩
  · intro f text sel err hf
    simp [_safe_wrap, hf]
  · intro pre post f text sel err hf
    rw [run_selected, run_selected, List.foldl_append, List.foldl_append, List.foldl_cons]
    have : safeCall f text sel = [] := by simp [safeCall, hf]
    rw [this, List.append_nil]
  · intro D policy content err hner
    by_cases hm : policy.mask_all <;>
      simp [process_text_content, hm, safeCall, hner, emptyDetector]
  · intro D policy content
    by_cases hm : policy.mask_all <;>
      simp [process_text_content, hm, safeCall_safe_wrap]

/-- Claim C7 witness: the amended theorem applied to a detector that
always raises: the safe wrapper yields an empty span list, the registry
run is unchanged, and the pipeline result with a failing `ner` detector
equals the run with no `ner` detector at all. -/
theorem claim7_witness :
    _safe_wrap (fun _ _ => .error "boom") "hi" ["email"] = .ok [] ∧
      run_selected ([] ++ (fun _ _ => .error "boom") :: []) "hi" ["email"] =
        run_selected ([] ++ []) "hi" ["email"] ∧
      process_text_content { quietDetectors with ner := fun _ _ => .error "boom" }
          ⟨false, ["email"], []⟩ "hi" =
        process_text_content
          { { quietDetectors with ner := fun _ _ => .error "boom" } with ner := emptyDetector }
          ⟨false, ["email"], []⟩ "hi" :=
  ⟨claim7_detector_isolation.1 (fun _ _ => .error "boom") "hi" ["email"] "boom" rfl,
    claim7_detector_isolation.2.1 [] [] (fun _ _ => .error "boom") "hi" ["email"] "boom" rfl,
    claim7_detector_isolation.2.2.1 { quietDetectors with ner := fun _ _ => .error "boom" }
      ⟨false, ["email"], []⟩ "hi" "boom" rfl⟩

/-- Claim C8: `next_index` returns the previous per-type counter plus one
(hence per-type indices grow strictly); `set_document_key` resets every
per-type counter to 0, the next index issued for any type being 1 —
indeed it restores the freshly-constructed state under the new document
key; and over any operation sequence without a key change, the indices a
fresh pseudonymizer hands out for an entity type are exactly
`1, 2, 3, …`. -/
theorem claim8_counters :
    (∀ (p : Pseudonymizer) (t : String),
        (next_index p t).1 = countersGet p.counters t + 1) ∧
      (∀ (p : Pseudonymizer) (k : List Nat) (t : String),
        countersGet (set_document_key p k).counters t = 0 ∧
          (next_index (set_document_key p k) t).1 = 1) ∧
      (∀ (p : Pseudonymizer) (k : List Nat),
        set_document_key p k = mkPseudonymizer p.config.env_key k p.config.algo) ∧
      (∀ (env doc : List Nat) (algo : HmacAlgo) (ops : List PseudoOp) (t : String),
        NoReset ops →
          outFor t (runOps (mkPseudonymizer env doc algo) ops).1 =
            List.range' 1 (countNI t ops)) := by
  refine ⟨fun p t => rfl, fun p k t => ⟨rfl, rfl⟩, fun p k => rfl, ?_⟩
  intro env doc algo ops t h
  simpa using runOps_outFor t ops (mkPseudonymizer env doc algo) h

/-- Claim C8 witness: a fresh pseudonymizer handed the operation sequence
`next_index "person_name"; next_index "email"; next_index "person_name"`
returns `1, 2` for `person_name`. -/
theorem claim8_witness :
    outFor "person_name"
        (runOps (mkPseudonymizer [1] [] trivAlgo)
          [.nextIndex "person_name", .nextIndex "email", .nextIndex "person_name"]).1 =
      List.range' 1 (countNI "person_name"
        [.nextIndex "person_name", .nextIndex "email", .nextIndex "person_name"]) :=
  claim8_counters.2.2.2 [1] [] trivAlgo
    [.nextIndex "person_name", .nextIndex "email", .nextIndex "person_name"]
    "person_name" (by decide)

/-- Claim C1 (counterexample to the claim as stated): determinism does
NOT hold for every template.  With a `\x7bdate:FMT\x7d` placeholder and no
explicit `date` argument, `pseudonymize` renders
`datetime.now(timezone.utc)`; two identically-constructed pseudonymizers
called at different wall-clock instants (here 2024 vs 2025) give different
strings for the same `(original value, entity_type, template)`. -/
theorem claim1_counterexample :
    (pseudonymize (mkPseudonymizer [0] [] trivAlgo) ⟨2024, 1, 1, 0, 0, 0⟩
        "v" "t" "X\x7bdate:%Y\x7d" none none none).1 ≠
      (pseudonymize (mkPseudonymizer [0] [] trivAlgo) ⟨2025, 1, 1, 0, 0, 0⟩
        "v" "t" "X\x7bdate:%Y\x7d" none none none).1 := by
  decide

/-- Claim C1 (amended): two pseudonymizers constructed with identical
`(env_key, doc_key, algo)` render byte-identical output for the same
`(entity_type, template)` and any two originals with the same normalized
(stripped) value, for every index/keep_parts argument and arbitrary
ambient clocks, in each of the two date regimes: (1) the per-call date is
pinned by an explicit `date` argument; (2) the date is left to the
wall-clock default but no `\x7bdate:FMT\x7d` placeholder survives in the
rendered string just before the date pass (`renderAfterHash` of the
digest, normalized value, resolved index and template) — in particular
for spec scenario 5's `NAME_\x7bhash8\x7d` and every default template
under the production call pattern `date=None`.  Branch (2)'s hypothesis
is on the pre-date-pass rendering rather than on the template text
because the hash pass can synthesize a date placeholder: template
`"\x7b\x7bhash2\x7dte:%Y\x7d"` with a digest starting `"da"` renders to
`"\x7bdate:%Y\x7d"` before the date pass.  Together the branches subsume
the spec invariant `identical (env_key, doc_key, entity_type,
normalized_value) → byte-identical output` for wall-clock-free
renderings; with a surviving `\x7bdate:FMT\x7d` under the default clock
the counterexample applies. -/
theorem claim1_pseudonym_determinism :
    (∀ (algo : HmacAlgo) (env doc : List Nat) (o1 o2 entity_type template : String)
        (now1 now2 d : PyDateTime) (index : Option Nat) (keep_parts : Option Int),
      pyStrip o1 = pyStrip o2 →
        pseudonymize (mkPseudonymizer env doc algo) now1 o1 entity_type template
            index (some d) keep_parts =
          pseudonymize (mkPseudonymizer env doc algo) now2 o2 entity_type template
            index (some d) keep_parts) ∧
      (∀ (algo : HmacAlgo) (env doc : List Nat) (o1 o2 entity_type template : String)
          (now1 now2 : PyDateTime) (index : Option Nat) (keep_parts : Option Int),
        pyStrip o1 = pyStrip o2 →
        containsSub "\x7bdate:".toList
            (renderAfterHash
              (_digest_hex ⟨env, doc, algo⟩ (entity_type ++ unitSep ++ pyStrip o1))
              (pyStrip o1) (index.getD 1) template) = false →
          pseudonymize (mkPseudonymizer env doc algo) now1 o1 entity_type template
              index none keep_parts =
            pseudonymize (mkPseudonymizer env doc algo) now2 o2 entity_type template
              index none keep_parts) := by
  constructor
  · intro algo env doc o1 o2 entity_type template now1 now2 d index keep_parts h
    simp only [pseudonymize, Option.getD_some, h]
  · intro algo env doc o1 o2 entity_type template now1 now2 index keep_parts h hdf
    rw [h] at hdf
    cases index with
    | some i =>
        simp only [Option.getD_some] at hdf
        simp only [pseudonymize, mkPseudonymizer, Option.getD_none, h]
        rw [expandDateF_of_not_contains now1 _ _ hdf,
          expandDateF_of_not_contains now2 _ _ hdf]
    | none =>
        simp only [Option.getD_none] at hdf
        simp only [pseudonymize, next_index, mkPseudonymizer, countersGet,
          List.lookup_nil, Option.getD_none, Nat.zero_add, h]
        rw [expandDateF_of_not_contains now1 _ _ hdf,
          expandDateF_of_not_contains now2 _ _ hdf]

/-- Claim C1 witness: both branches of the amended theorem at concrete
inputs — the two originals differ only in surrounding whitespace and the
two ambient clocks differ; branch (1) with an explicit date, and branch
(2) in the spec scenario 5 call pattern (`NAME_\x7bhash8\x7d`, no date
argument), whose pre-date-pass rendering is date-placeholder-free. -/
theorem claim1_witness :
    pyStrip "  Alice Smith " = pyStrip "Alice Smith" ∧
      containsSub "\x7bdate:".toList
          (renderAfterHash
            (_digest_hex ⟨[5], [6], trivAlgo⟩
              ("person_name" ++ unitSep ++ pyStrip "  Alice Smith "))
            (pyStrip "  Alice Smith ") ((none : Option Nat).getD 1)
            "NAME_\x7bhash8\x7d") = false ∧
      pseudonymize (mkPseudonymizer [5] [6] trivAlgo) ⟨2024, 1, 1, 0, 0, 0⟩
          "  Alice Smith " "person_name" "NAME_\x7bhash8\x7d" none
          (some ⟨2025, 1, 2, 3, 4, 5⟩) none =
        pseudonymize (mkPseudonymizer [5] [6] trivAlgo) ⟨2026, 2, 2, 0, 0, 0⟩
          "Alice Smith" "person_name" "NAME_\x7bhash8\x7d" none
          (some ⟨2025, 1, 2, 3, 4, 5⟩) none ∧
      pseudonymize (mkPseudonymizer [5] [6] trivAlgo) ⟨2024, 1, 1, 0, 0, 0⟩
          "  Alice Smith " "person_name" "NAME_\x7bhash8\x7d" none none none =
        pseudonymize (mkPseudonymizer [5] [6] trivAlgo) ⟨2026, 2, 2, 0, 0, 0⟩
          "Alice Smith" "person_name" "NAME_\x7bhash8\x7d" none none none :=
  ⟨by decide, by decide,
    claim1_pseudonym_determinism.1 trivAlgo [5] [6] "  Alice Smith " "Alice Smith"
      "person_name" "NAME_\x7bhash8\x7d" ⟨2024, 1, 1, 0, 0, 0⟩ ⟨2026, 2, 2, 0, 0, 0⟩
      ⟨2025, 1, 2, 3, 4, 5⟩ none none (by decide),
    claim1_pseudonym_determinism.2 trivAlgo [5] [6] "  Alice Smith " "Alice Smith"
      "person_name" "NAME_\x7bhash8\x7d" ⟨2024, 1, 1, 0, 0, 0⟩ ⟨2026, 2, 2, 0, 0, 0⟩
      none none (by decide) (by decide)⟩

/-- Claim C5: `validate_and_normalize_policy` never lets a template
containing `\x7borig\x7d` or `\x7btext\x7d` through (first conjunct: every
template surviving normalization is free of both substrings); when an
input entry carries such a template it survives with its `template` field
removed (second conjunct); and when that entry's action is `pseudonymize`,
the rewriter closure built on the normalized policy falls back to the
type's default template, so the unsafe template never contributes to the
masked output (third conjunct). -/
theorem claim5_template_safety :
    (∀ (policy : Option RawPolicy) (et : String) (cfg : NormCfg) (t : String),
        (validate_and_normalize_policy policy).actions.lookup et = some cfg →
        cfg.template = some t →
          containsSub "\x7borig\x7d".toList t.toList = false ∧
            containsSub "\x7btext\x7d".toList t.toList = false) ∧
      (∀ (rp : RawPolicy) (et : String) (rcfg : RawCfg) (t : String),
        rp.actions.lookup et = some rcfg →
        rcfg.template = some t →
        (containsSub "\x7borig\x7d".toList t.toList = true ∨
          containsSub "\x7btext\x7d".toList t.toList = true) →
          (validate_and_normalize_policy (some rp)).actions.lookup et =
              some (stripUnsafeTemplate (normalizeCfg rcfg)) ∧
            (stripUnsafeTemplate (normalizeCfg rcfg)).template = none) ∧
      (∀ (rp : RawPolicy) (et : String) (rcfg : RawCfg) (t : String)
          (p : Pseudonymizer) (now : PyDateTime) (entity : Span) (original : String),
        rp.actions.lookup et = some rcfg →
        rcfg.template = some t →
        (containsSub "\x7borig\x7d".toList t.toList = true ∨
          containsSub "\x7btext\x7d".toList t.toList = true) →
        (normalizeCfg rcfg).action = "pseudonymize" →
        entity.type = et →
          build_text_pseudonymize_fn (validate_and_normalize_policy (some rp))
              p now entity original =
            pseudonymize p now original et (_map_default_template et) none none
              (normalizeCfg rcfg).keep_parts) := by
  have hstripped : ∀ (rcfg : RawCfg) (t : String), rcfg.template = some t →
      (containsSub "\x7borig\x7d".toList t.toList = true ∨
        containsSub "\x7btext\x7d".toList t.toList = true) →
      (stripUnsafeTemplate (normalizeCfg rcfg)).template = none := by
    intro rcfg t ht hor
    rcases stripUnsafeTemplate_template (normalizeCfg rcfg) with hnone | ⟨t0, ht0, _, h1, h2⟩
    · exact hnone
    · rcases normalizeCfg_template rcfg with hn | hn
      · rw [hn] at ht0; cases ht0
      · rw [hn, ht] at ht0
        cases ht0
        rcases hor with hor | hor
        · rw [h1] at hor; cases hor
        · rw [h2] at hor; cases hor
  refine ⟨?_, ?_, ?_⟩
  · intro policy et cfg t hlook htmpl
    cases policy with
    | none => simp [validate_and_normalize_policy] at hlook
    | some rp =>
        rw [lookup_normalized_actions] at hlook
        cases hraw : rp.actions.lookup et with
        | none => rw [hraw] at hlook; cases hlook
        | some rcfg =>
            rw [hraw, Option.map_some'] at hlook
            cases hlook
            rcases stripUnsafeTemplate_template (normalizeCfg rcfg) with hnone | ⟨t0, _, hsome, h1, h2⟩
            · rw [hnone] at htmpl; cases htmpl
            · rw [hsome] at htmpl
              cases htmpl
              exact ⟨h1, h2⟩
  · intro rp et rcfg t hraw ht hor
    refine ⟨?_, hstripped rcfg t ht hor⟩
    rw [lookup_normalized_actions, hraw, Option.map_some']
  · intro rp et rcfg t p now entity original hraw ht hor haction hetype
    have hlook : (validate_and_normalize_policy (some rp)).actions.lookup entity.type =
        some (stripUnsafeTemplate (normalizeCfg rcfg)) := by
      rw [hetype, lookup_normalized_actions, hraw, Option.map_some']
    have ha : (stripUnsafeTemplate (normalizeCfg rcfg)).action = "pseudonymize" :=
      (stripUnsafeTemplate_action _).trans haction
    have htn : (stripUnsafeTemplate (normalizeCfg rcfg)).template = none :=
      hstripped rcfg t ht hor
    rw [build_text_pseudonymize_fn, hlook]
    simp only [ha, htn, stripUnsafeTemplate_keep_parts, hetype]
    rw [if_neg (by decide), if_neg (by decide)]
    simp [templateOr]

/-- Claim C5 witness: the theorem applied to `rawUnsafePolicy`, whose
`email` entry requests `pseudonymize` with the echo template
`\x7borig\x7d`: normalization keeps the entry but drops the template, and
the rewriter closure renders the default email template instead. -/
theorem claim5_witness :
    (validate_and_normalize_policy (some rawUnsafePolicy)).actions.lookup "email" =
        some (stripUnsafeTemplate (normalizeCfg rawUnsafeCfg)) ∧
      (stripUnsafeTemplate (normalizeCfg rawUnsafeCfg)).template = none ∧
      build_text_pseudonymize_fn (validate_and_normalize_policy (some rawUnsafePolicy))
          (mkPseudonymizer [1] [] trivAlgo) ⟨2025, 1, 1, 0, 0, 0⟩
          ⟨"email", 0, 17, none⟩ "alice@example.com" =
        pseudonymize (mkPseudonymizer [1] [] trivAlgo) ⟨2025, 1, 1, 0, 0, 0⟩
          "alice@example.com" "email" (_map_default_template "email") none none
          (normalizeCfg rawUnsafeCfg).keep_parts :=
  ⟨(claim5_template_safety.2.1 rawUnsafePolicy "email" rawUnsafeCfg "\x7borig\x7d"
      rfl rfl (Or.inl (by decide))).1,
    (claim5_template_safety.2.1 rawUnsafePolicy "email" rawUnsafeCfg "\x7borig\x7d"
      rfl rfl (Or.inl (by decide))).2,
    claim5_template_safety.2.2 rawUnsafePolicy "email" rawUnsafeCfg "\x7borig\x7d"
      (mkPseudonymizer [1] [] trivAlgo) ⟨2025, 1, 1, 0, 0, 0⟩
      ⟨"email", 0, 17, none⟩ "alice@example.com" rfl rfl (Or.inl (by decide))
      (by decide) rfl⟩

end DocMasking
